import Mathlib

/-!
Verification development for the `oci-fdk-node-ts` invocation adapter
(`src/fdk.ts`).  The TypeScript source is shallowly embedded: pure
functions become Lean functions, the mutable `Context` /
`http.ServerResponse` / express-shim objects become explicit state
records, and the JavaScript builtins the code relies on (`JSON.parse`,
`JSON.stringify`, string `split` / `join` / case mapping, object
property maps) are modelled executably.  Machine strings are Lean
`String`s (ASCII is what the protocol headers use); JS `Buffer`s are
modelled by their textual content.
-/

namespace Fdk

/-! ### ASCII case mapping (JS `toUpperCase` / `toLowerCase` on one char)

The adapter only ever case-maps header names, which are ASCII, so the
core `Char.toUpper` / `Char.toLower` (basic-latin only) model the JS
behaviour exactly.  We prove the handful of facts the canonicalization
proofs need. -/

theorem toNat_ofNat_valid {n : Nat} (h : n.isValidChar) : (Char.ofNat n).toNat = n := by
  rw [Char.ofNat, dif_pos h]
  rfl

theorem char_toNat_inj {a b : Char} (h : a.toNat = b.toNat) : a = b := by
  rw [← Char.ofNat_toNat a, ← Char.ofNat_toNat b, h]

theorem char_toNat_lt (c : Char) : c.toNat < 1114112 := by
  rcases c.valid with h | ⟨_, h⟩
  · exact Nat.lt_trans h (by decide)
  · exact h

theorem toNat_toUpper (c : Char) :
    (Char.toUpper c).toNat = if 97 ≤ c.toNat ∧ c.toNat ≤ 122 then c.toNat - 32 else c.toNat := by
  show (if c.toNat ≥ 97 ∧ c.toNat ≤ 122 then Char.ofNat (c.toNat - 32) else c).toNat = _
  split
  · rename_i h
    exact toNat_ofNat_valid (Or.inl (by omega))
  · rfl

theorem toNat_toLower (c : Char) :
    (Char.toLower c).toNat = if 65 ≤ c.toNat ∧ c.toNat ≤ 90 then c.toNat + 32 else c.toNat := by
  show (if c.toNat ≥ 65 ∧ c.toNat ≤ 90 then Char.ofNat (c.toNat + 32) else c).toNat = _
  split
  · rename_i h
    exact toNat_ofNat_valid (Or.inl (by omega))
  · rfl

theorem toUpper_toUpper (c : Char) : c.toUpper.toUpper = c.toUpper := by
  apply char_toNat_inj
  rw [toNat_toUpper, toNat_toUpper c]
  split
  · rename_i h
    rw [if_neg (by omega)]
  · rfl

theorem toLower_toLower (c : Char) : c.toLower.toLower = c.toLower := by
  apply char_toNat_inj
  rw [toNat_toLower, toNat_toLower c]
  split
  · rename_i h
    rw [if_neg (by omega)]
  · rfl

theorem toUpper_ne_of_ne (c : Char) {d : Char}
    (hlow : d.toNat < 65 ∨ 90 < d.toNat) (hne : c ≠ d) : c.toUpper ≠ d := by
  intro h
  have hn := congrArg Char.toNat h
  rw [toNat_toUpper] at hn
  split at hn
  · omega
  · exact hne (char_toNat_inj hn)

theorem toLower_ne_of_ne (c : Char) {d : Char}
    (hlow : d.toNat < 97 ∨ 122 < d.toNat) (hne : c ≠ d) : c.toLower ≠ d := by
  intro h
  have hn := congrArg Char.toNat h
  rw [toNat_toLower] at hn
  split at hn
  · omega
  · exact hne (char_toNat_inj hn)

/-! ### Splitting on `'-'` and rejoining (JS `split('-')` / `join('-')`)

`splitOnDash` follows JavaScript `String.prototype.split` with a
one-character separator: the empty string splits to `[""]`, and empty
segments between, before, or after separators are kept. -/

def splitOnDash : List Char → List (List Char)
  | [] => [[]]
  | c :: cs =>
    if c = '-' then [] :: splitOnDash cs
    else
      match splitOnDash cs with
      | [] => [[c]]
      | w :: ws => (c :: w) :: ws

def joinDash : List (List Char) → List Char
  | [] => []
  | [w] => w
  | w :: ws => w ++ '-' :: joinDash ws

theorem splitOnDash_ne_nil (l : List Char) : splitOnDash l ≠ [] := by
  induction l with
  | nil => simp [splitOnDash]
  | cons c cs ih =>
    simp only [splitOnDash]
    split
    · simp
    · split
      · simp
      · simp

theorem mem_splitOnDash_no_dash (l : List Char) :
    ∀ w ∈ splitOnDash l, '-' ∉ w := by
  induction l with
  | nil =>
    intro w hw
    simp [splitOnDash] at hw
    simp [hw]
  | cons c cs ih =>
    intro w hw
    simp only [splitOnDash] at hw
    split at hw
    · rcases List.mem_cons.mp hw with rfl | h
      · simp
      · exact ih w h
    · rename_i hc
      rcases hsp : splitOnDash cs with _ | ⟨w0, ws⟩
      · exact absurd hsp (splitOnDash_ne_nil cs)
      · rw [hsp] at hw
        rcases List.mem_cons.mp hw with rfl | h
        · intro hmem
          rcases List.mem_cons.mp hmem with h1 | h1
          · exact hc h1.symm
          · exact ih w0 (hsp ▸ List.mem_cons_self _ _) h1
        · exact ih w (hsp ▸ List.mem_cons_of_mem _ h)

theorem mem_of_mem_splitOnDash (l : List Char) :
    ∀ w ∈ splitOnDash l, ∀ c ∈ w, c ∈ l := by
  induction l with
  | nil =>
    intro w hw
    simp [splitOnDash] at hw
    simp [hw]
  | cons a cs ih =>
    intro w hw c hc
    simp only [splitOnDash] at hw
    split at hw
    · rcases List.mem_cons.mp hw with rfl | h
      · simp at hc
      · exact List.mem_cons_of_mem _ (ih w h c hc)
    · rcases hsp : splitOnDash cs with _ | ⟨w0, ws⟩
      · exact absurd hsp (splitOnDash_ne_nil cs)
      · rw [hsp] at hw
        rcases List.mem_cons.mp hw with rfl | h
        · rcases List.mem_cons.mp hc with rfl | h1
          · exact List.mem_cons_self _ _
          · exact List.mem_cons_of_mem _ (ih w0 (hsp ▸ List.mem_cons_self _ _) c h1)
        · exact List.mem_cons_of_mem _ (ih w (hsp ▸ List.mem_cons_of_mem _ h) c hc)

theorem splitOnDash_no_dash {w : List Char} (h : '-' ∉ w) : splitOnDash w = [w] := by
  induction w with
  | nil => rfl
  | cons c cs ih =>
    have hc : c ≠ '-' := fun hc => h (hc ▸ List.mem_cons_self _ _)
    have hcs : '-' ∉ cs := fun hm => h (List.mem_cons_of_mem _ hm)
    simp only [splitOnDash, if_neg hc, ih hcs]

theorem splitOnDash_append_dash {w : List Char} (t : List Char) (h : '-' ∉ w) :
    splitOnDash (w ++ '-' :: t) = w :: splitOnDash t := by
  induction w with
  | nil => simp [splitOnDash]
  | cons c cs ih =>
    have hc : c ≠ '-' := fun hc => h (hc ▸ List.mem_cons_self _ _)
    have hcs : '-' ∉ cs := fun hm => h (List.mem_cons_of_mem _ hm)
    simp only [List.cons_append, splitOnDash, if_neg hc, List.append_eq, ih hcs]

theorem splitOnDash_joinDash (ws : List (List Char)) (hne : ws ≠ [])
    (h : ∀ w ∈ ws, '-' ∉ w) : splitOnDash (joinDash ws) = ws := by
  induction ws with
  | nil => exact absurd rfl hne
  | cons w ws ih =>
    cases ws with
    | nil => exact splitOnDash_no_dash (h w (List.mem_cons_self _ _))
    | cons w1 ws1 =>
      show splitOnDash (w ++ '-' :: joinDash (w1 :: ws1)) = _
      rw [splitOnDash_append_dash _ (h w (List.mem_cons_self _ _))]
      rw [ih (by simp) (fun x hx => h x (List.mem_cons_of_mem _ hx))]

/-! ### Header-name canonicalization (`canonHeader` in `src/fdk.ts`)

```
h.replace(/_/g, '-').split('-').map((part) => {
    if (part) { return part.charAt(0).toUpperCase() + part.slice(1).toLowerCase(); }
    return '';
}).join('-')
``` -/

def replUnd (c : Char) : Char := if c = '_' then '-' else c

def capWord : List Char → List Char
  | [] => []
  | c :: cs => c.toUpper :: cs.map Char.toLower

def canonList (l : List Char) : List Char :=
  joinDash ((splitOnDash (l.map replUnd)).map capWord)

def canonHeader (s : String) : String := ⟨canonList s.data⟩

/-- Modelled from the spec: the reference canonicalization of §4.1, whose
words say that empty segments *vanish without leaving stray separators*:
segments are filtered down to the non-empty ones before capitalizing and
rejoining.  It exists only to be compared with `canonHeader`, which is
translated from the source. -/
def canonSpecHeader (s : String) : String :=
  ⟨joinDash (((splitOnDash (s.data.map replUnd)).filter (fun w => !w.isEmpty)).map capWord)⟩

theorem capWord_capWord (w : List Char) : capWord (capWord w) = capWord w := by
  cases w with
  | nil => rfl
  | cons c cs =>
    simp only [capWord, List.map_map, toUpper_toUpper, List.cons.injEq, true_and]
    exact List.map_congr_left (fun x _ => toLower_toLower x)

theorem capWord_no_dash {w : List Char} (h : '-' ∉ w) : '-' ∉ capWord w := by
  cases w with
  | nil => simp [capWord]
  | cons c cs =>
    intro hmem
    rcases List.mem_cons.mp hmem with h1 | h1
    · exact toUpper_ne_of_ne c (by left; decide)
        (fun hc => h (hc ▸ List.mem_cons_self _ _)) h1.symm
    · rcases List.mem_map.mp h1 with ⟨x, hx, hx2⟩
      exact toLower_ne_of_ne x (d := '-') (by left; decide)
        (fun hc => h (List.mem_cons_of_mem _ (hc ▸ hx))) hx2

theorem capWord_no_und {w : List Char} (h : '_' ∉ w) : '_' ∉ capWord w := by
  cases w with
  | nil => simp [capWord]
  | cons c cs =>
    intro hmem
    rcases List.mem_cons.mp hmem with h1 | h1
    · exact toUpper_ne_of_ne c (by right; decide)
        (fun hc => h (hc ▸ List.mem_cons_self _ _)) h1.symm
    · rcases List.mem_map.mp h1 with ⟨x, hx, hx2⟩
      exact toLower_ne_of_ne x (d := '_') (by left; decide)
        (fun hc => h (List.mem_cons_of_mem _ (hc ▸ hx))) hx2

theorem mem_joinDash {ws : List (List Char)} {c : Char} (hc : c ≠ '-')
    (h : c ∈ joinDash ws) : ∃ w ∈ ws, c ∈ w := by
  induction ws with
  | nil => simp [joinDash] at h
  | cons w ws ih =>
    cases ws with
    | nil => exact ⟨w, List.mem_cons_self _ _, h⟩
    | cons w1 ws1 =>
      rcases List.mem_append.mp h with h1 | h1
      · exact ⟨w, List.mem_cons_self _ _, h1⟩
      · rcases List.mem_cons.mp h1 with rfl | h2
        · exact absurd rfl hc
        · rcases ih h2 with ⟨x, hx, hxc⟩
          exact ⟨x, List.mem_cons_of_mem _ hx, hxc⟩

theorem replUnd_of_no_und {l : List Char} (h : '_' ∉ l) : l.map replUnd = l := by
  have h2 : l.map replUnd = l.map id := List.map_congr_left (fun c hc => by
    have hcu : c ≠ '_' := fun hcu => h (hcu ▸ hc)
    simp [replUnd, hcu])
  simpa using h2

theorem no_und_replUnd (l : List Char) : '_' ∉ l.map replUnd := by
  intro h
  rcases List.mem_map.mp h with ⟨c, _, hc⟩
  by_cases hcu : c = '_' <;> simp [replUnd, hcu] at hc

/-- Canonicalization is idempotent (part of claim C6). -/
theorem canonHeader_idem (s : String) : canonHeader (canonHeader s) = canonHeader s := by
  show (⟨canonList (canonList s.data)⟩ : String) = ⟨canonList s.data⟩
  apply congrArg
  unfold canonList
  set m := s.data.map replUnd with hm
  set ws := (splitOnDash m).map capWord with hws
  have hwsne : ws ≠ [] := by
    intro h
    exact splitOnDash_ne_nil m (List.map_eq_nil_iff.mp (hws ▸ h))
  have hnodash : ∀ w ∈ ws, '-' ∉ w := by
    intro w hw
    rcases List.mem_map.mp (hws ▸ hw) with ⟨w0, hw0, rfl⟩
    exact capWord_no_dash (mem_splitOnDash_no_dash m w0 hw0)
  have hnound : ∀ w ∈ ws, '_' ∉ w := by
    intro w hw
    rcases List.mem_map.mp (hws ▸ hw) with ⟨w0, hw0, rfl⟩
    exact capWord_no_und (fun hu => no_und_replUnd s.data
      (mem_of_mem_splitOnDash m w0 hw0 '_' hu))
  have hjoin_no_und : '_' ∉ joinDash ws := by
    intro h
    rcases mem_joinDash (by decide) h with ⟨w, hw, hwc⟩
    exact hnound w hw hwc
  rw [replUnd_of_no_und hjoin_no_und, splitOnDash_joinDash ws hwsne hnodash, hws,
    List.map_map]
  simp only [Function.comp_def]
  exact congrArg joinDash (List.map_congr_left (fun w _ => capWord_capWord w))

theorem joinDash_cons_ne {w : List Char} {ws : List (List Char)} (h : ws ≠ []) :
    joinDash (w :: ws) = w ++ '-' :: joinDash ws := by
  cases ws with
  | nil => exact absurd rfl h
  | cons a as => rfl

theorem splitOnDash_mark (t : List Char) :
    splitOnDash (['F', 'n', '-', 'H', 't', 't', 'p', '-', 'H', '-'] ++ t) =
      ['F', 'n'] :: ['H', 't', 't', 'p'] :: ['H'] :: splitOnDash t := by
  show splitOnDash
      (['F', 'n'] ++ '-' :: (['H', 't', 't', 'p'] ++ '-' :: (['H'] ++ '-' :: t))) = _
  rw [splitOnDash_append_dash _ (by decide), splitOnDash_append_dash _ (by decide),
    splitOnDash_append_dash _ (by decide)]

/-- The gateway marker `Fn-Http-H-` is already canonical, so canonicalizing a
marked name canonicalizes just the wrapped part. -/
theorem canonHeader_gateway (key : String) :
    canonHeader ("Fn-Http-H-" ++ key) = "Fn-Http-H-" ++ canonHeader key := by
  apply String.ext
  show canonList (("Fn-Http-H-" ++ key).data) = "Fn-Http-H-".data ++ canonList key.data
  rw [String.data_append]
  show canonList (['F', 'n', '-', 'H', 't', 't', 'p', '-', 'H', '-'] ++ key.data) = _
  unfold canonList
  rw [List.map_append]
  rw [show List.map replUnd ['F', 'n', '-', 'H', 't', 't', 'p', '-', 'H', '-'] =
    ['F', 'n', '-', 'H', 't', 't', 'p', '-', 'H', '-'] from by decide]
  rw [splitOnDash_mark]
  simp only [List.map_cons]
  rw [show capWord ['F', 'n'] = ['F', 'n'] from by decide,
    show capWord ['H', 't', 't', 'p'] = ['H', 't', 't', 'p'] from by decide,
    show capWord ['H'] = ['H'] from by decide]
  have hne : (splitOnDash (key.data.map replUnd)).map capWord ≠ [] := by
    intro h
    exact splitOnDash_ne_nil _ (List.map_eq_nil_iff.mp h)
  rw [joinDash_cons_ne (by simp), joinDash_cons_ne (by simp), joinDash_cons_ne hne]
  rfl

/-! ### Header maps (`FnHeaders`, a JS object of `string -> string[]`)

A JS object is modelled as an association list: assigning to a present
key updates it in place, assigning a fresh key appends it. -/

abbrev Headers : Type := List (String × List String)

def hHas (hs : Headers) (k : String) : Bool :=
  hs.any (fun e => e.1 == k)

def hFind (hs : Headers) (k : String) : Option (List String) :=
  (hs.find? (fun e => e.1 == k)).map (fun e => e.2)

/-- JS `obj[k] = vs`. -/
def hSet (hs : Headers) (k : String) (vs : List String) : Headers :=
  if hHas hs k then hs.map (fun e => if e.1 == k then (k, vs) else e)
  else hs ++ [(k, vs)]

/-- JS `if (!obj[k]) obj[k] = []; obj[k].push(...vs)`. -/
def hAddPush (hs : Headers) (k : String) (vs : List String) : Headers :=
  if hHas hs k then hs.map (fun e => if e.1 == k then (e.1, e.2 ++ vs) else e)
  else hs ++ [(k, vs)]

/-- JS `if (!obj[k]) obj[k] = [v]; else obj[k].push(v)` (from `processHeaders`). -/
def hPush1 (hs : Headers) (k v : String) : Headers :=
  if hHas hs k then hs.map (fun e => if e.1 == k then (e.1, e.2 ++ [v]) else e)
  else hs ++ [(k, [v])]

/-! ### Transport header decoding (`skipHeaders` / `processHeaders`) -/

/-- The deny-object literal of `src/fdk.ts` lines 42-49.  Lookup is by exact
key, mirroring `skipHeaders[key]`. -/
def skipHeaders (k : String) : Bool :=
  k == "TE" || k == "Connection" || k == "Keep-Alive" ||
    k == "Transfer-Encoding" || k == "Trailer" || k == "Upgrade"

/-- `processHeaders(rawHeaders)`: the flat name/value list is modelled as the
list of its pairs (Node's `rawHeaders` always has even length). -/
def processHeaders (raw : List (String × String)) : Headers :=
  raw.foldl
    (fun hs kv =>
      let key := canonHeader kv.1
      if skipHeaders key then hs else hPush1 hs key kv.2)
    []

/-! ### JSON values, `JSON.stringify` and strict `JSON.parse`

The adapter leans on the JS builtins `JSON.parse` / `JSON.stringify`,
which are modelled executably here.  Numbers are restricted to integers
(the protocol and every claim only exercise integers), and object fields
keep insertion order, as JS objects do. -/

inductive Json where
  | null : Json
  | bool (b : Bool) : Json
  | num (n : Int) : Json
  | str (s : String) : Json
  | arr (xs : List Json) : Json
  | obj (fields : List (String × Json)) : Json
deriving Repr

def hexDigit (n : Nat) : Char :=
  if n < 10 then Char.ofNat (48 + n) else Char.ofNat (87 + n)

/-- One character of JSON string-escaping, as `JSON.stringify` performs it. -/
def escChar (c : Char) : String :=
  if c = '"' then "\\\""
  else if c = '\\' then "\\\\"
  else if c = '\n' then "\\n"
  else if c = '\r' then "\\r"
  else if c = '\t' then "\\t"
  else if c = '\x08' then "\\b"
  else if c = '\x0c' then "\\f"
  else if c.toNat < 32 then
    "\\u00" ++ String.singleton (hexDigit (c.toNat / 16)) ++ String.singleton (hexDigit (c.toNat % 16))
  else String.singleton c

def jstr (s : String) : String :=
  "\"" ++ String.join (s.data.map escChar) ++ "\""

mutual

def jser : Json → String
  | .null => "null"
  | .bool true => "true"
  | .bool false => "false"
  | .num n => toString n
  | .str s => jstr s
  | .arr xs => "[" ++ jserArr xs ++ "]"
  | .obj fs => "\x7b" ++ jserObj fs ++ "\x7d"

def jserArr : List Json → String
  | [] => ""
  | [x] => jser x
  | x :: y :: xs => jser x ++ "," ++ jserArr (y :: xs)

def jserObj : List (String × Json) → String
  | [] => ""
  | [(k, v)] => jstr k ++ ":" ++ jser v
  | (k, v) :: f :: fs => jstr k ++ ":" ++ jser v ++ "," ++ jserObj (f :: fs)

end

def wsChar (c : Char) : Bool :=
  c = ' ' || c = '\t' || c = '\n' || c = '\r'

def skipWs : List Char → List Char
  | [] => []
  | c :: cs => if wsChar c then skipWs cs else c :: cs

def takeDigits : List Char → List Char × List Char
  | [] => ([], [])
  | c :: cs =>
    if c.isDigit then
      let (d, r) := takeDigits cs
      (c :: d, r)
    else ([], c :: cs)

def digitsToNat (ds : List Char) : Nat :=
  ds.foldl (fun a c => a * 10 + (c.toNat - 48)) 0

/-- Strict JSON natural-number token: at least one digit, no leading zero.
Fractions and exponents are outside this model (rejected), which is
faithful for every integer-valued payload the adapter is specified on. -/
def parsePosInt (t : List Char) : Option (Nat × List Char) :=
  match takeDigits t with
  | ([], _) => none
  | (d :: ds, r) =>
    if d = '0' && !ds.isEmpty then none
    else
      match r with
      | c :: _ =>
        if c = '.' || c = 'e' || c = 'E' then none
        else some (digitsToNat (d :: ds), r)
      | [] => some (digitsToNat (d :: ds), [])

def parseIntTok : List Char → Option (Int × List Char)
  | '-' :: t => (parsePosInt t).map (fun p => (-(p.1 : Int), p.2))
  | t => (parsePosInt t).map (fun p => ((p.1 : Int), p.2))

def hexVal (c : Char) : Option Nat :=
  if '0' ≤ c ∧ c ≤ '9' then some (c.toNat - 48)
  else if 'a' ≤ c ∧ c ≤ 'f' then some (c.toNat - 87)
  else if 'A' ≤ c ∧ c ≤ 'F' then some (c.toNat - 55)
  else none

/-- Body of a strict JSON string after the opening quote; raw control
characters are rejected, the standard escapes are decoded. -/
def parseStrChars : Nat → List Char → Option (List Char × List Char)
  | 0, _ => none
  | _ + 1, [] => none
  | f + 1, c :: cs =>
    if c = '"' then some ([], cs)
    else if c = '\\' then
      match cs with
      | [] => none
      | e :: cs2 =>
        let esc : Option (Char × List Char) :=
          if e = '"' then some ('"', cs2)
          else if e = '\\' then some ('\\', cs2)
          else if e = '/' then some ('/', cs2)
          else if e = 'b' then some ('\x08', cs2)
          else if e = 'f' then some ('\x0c', cs2)
          else if e = 'n' then some ('\n', cs2)
          else if e = 'r' then some ('\r', cs2)
          else if e = 't' then some ('\t', cs2)
          else if e = 'u' then
            match cs2 with
            | h1 :: h2 :: h3 :: h4 :: cs3 =>
              match hexVal h1, hexVal h2, hexVal h3, hexVal h4 with
              | some a, some b, some c2, some d =>
                some (Char.ofNat (((a * 16 + b) * 16 + c2) * 16 + d), cs3)
              | _, _, _, _ => none
            | _ => none
          else none
        match esc with
        | none => none
        | some (ch, rest) =>
          match parseStrChars f rest with
          | some (out, r) => some (ch :: out, r)
          | none => none
    else if c.toNat < 32 then none
    else
      match parseStrChars f cs with
      | some (out, r) => some (c :: out, r)
      | none => none

mutual

def parseValue : Nat → List Char → Option (Json × List Char)
  | 0, _ => none
  | f + 1, cs =>
    match cs with
    | [] => none
    | c :: rest =>
      if c = 'n' then
        match rest with
        | 'u' :: 'l' :: 'l' :: r => some (.null, r)
        | _ => none
      else if c = 't' then
        match rest with
        | 'r' :: 'u' :: 'e' :: r => some (.bool true, r)
        | _ => none
      else if c = 'f' then
        match rest with
        | 'a' :: 'l' :: 's' :: 'e' :: r => some (.bool false, r)
        | _ => none
      else if c = '"' then
        match parseStrChars f rest with
        | some (out, r) => some (.str ⟨out⟩, r)
        | none => none
      else if c = '[' then
        match skipWs rest with
        | ']' :: r2 => some (.arr [], r2)
        | r1 =>
          match parseElems f r1 with
          | some (xs, r2) => some (.arr xs, r2)
          | none => none
      else if c = '\x7b' then
        match skipWs rest with
        | '\x7d' :: r2 => some (.obj [], r2)
        | r1 =>
          match parseFields f r1 with
          | some (fs, r2) => some (.obj fs, r2)
          | none => none
      else
        match parseIntTok (c :: rest) with
        | some (n, r) => some (.num n, r)
        | none => none

def parseElems : Nat → List Char → Option (List Json × List Char)
  | 0, _ => none
  | f + 1, cs =>
    match parseValue f (skipWs cs) with
    | none => none
    | some (v, r) =>
      match skipWs r with
      | ',' :: r2 =>
        match parseElems f r2 with
        | some (vs, r3) => some (v :: vs, r3)
        | none => none
      | ']' :: r2 => some ([v], r2)
      | _ => none

def parseFields : Nat → List Char → Option (List (String × Json) × List Char)
  | 0, _ => none
  | f + 1, cs =>
    match skipWs cs with
    | '"' :: r1 =>
      match parseStrChars f r1 with
      | none => none
      | some (key, r2) =>
        match skipWs r2 with
        | ':' :: r3 =>
          match parseValue f (skipWs r3) with
          | none => none
          | some (v, r4) =>
            match skipWs r4 with
            | ',' :: r5 =>
              match parseFields f r5 with
              | some (fs, r6) => some ((⟨key⟩, v) :: fs, r6)
              | none => none
            | '\x7d' :: r5 => some ([(⟨key⟩, v)], r5)
            | _ => none
        | _ => none
    | _ => none

end

/-- Strict `JSON.parse`: `none` models a thrown `SyntaxError`. -/
def parseJson (s : String) : Option Json :=
  match parseValue (s.data.length + 1) (skipWs s.data) with
  | some (v, r) => if skipWs r = [] then some v else none
  | none => none

/-! ### JS runtime values

The `unknown` values flowing through the adapter (request bodies,
handler results).  `vbuf` models a Node `Buffer` by its textual
content (the protocol bodies are text); `vraw` / `vstream` are the
`RawResult` / `StreamResult` subclasses of `FnResult`, `vstream`
carrying the chunks its readable stream emits and whether the stream
ends cleanly.  `vundef` stands for both `null` and `undefined`
(the code only ever tests them jointly via `!= null`). -/

inductive JsValue where
  | vundef : JsValue
  | vstr (s : String) : JsValue
  | vbuf (b : String) : JsValue
  | vjson (j : Json) : JsValue
  | vraw (data : String) : JsValue
  | vstream (chunks : List String) (ok : Bool) : JsValue
deriving Repr

/-- Wrap a parsed JSON value as the JS value `JSON.parse` returns. -/
def ofJson : Json → JsValue
  | .null => .vundef
  | .str s => .vstr s
  | j => .vjson j

/-- JS `typeof`. -/
def jsTypeof : JsValue → String
  | .vundef => "undefined"
  | .vstr _ => "string"
  | .vbuf _ => "object"
  | .vjson (.num _) => "number"
  | .vjson (.bool _) => "boolean"
  | .vjson (.str _) => "string"
  | .vjson _ => "object"
  | .vraw _ => "object"
  | .vstream _ _ => "object"

/-- JS `result != null` (false exactly for `null` / `undefined`). -/
def jsNonNull : JsValue → Bool
  | .vundef => false
  | _ => true

/-- JS `String(x)` for the values that can reach it in this model. -/
def jsToString : JsValue → String
  | .vundef => "undefined"
  | .vstr s => s
  | .vbuf b => b
  | .vjson (.num n) => toString n
  | .vjson (.bool true) => "true"
  | .vjson (.bool false) => "false"
  | .vjson (.str s) => s
  | .vjson _ => "[object Object]"
  | .vraw _ => "[object Object]"
  | .vstream _ _ => "[object Object]"

/-- JS `JSON.stringify`.  A `Buffer` serializes to its
`\x7b"type":"Buffer","data":[..]\x7d` object form; the `FnResult`
instances serialize their enumerable fields (they never reach
`JSON.stringify` in the code, which tests `instanceof FnResult`
first). -/
def jsStringify : JsValue → String
  | .vundef => "undefined"
  | .vstr s => jser (.str s)
  | .vbuf b =>
    jser (.obj [("type", .str "Buffer"),
      ("data", .arr (b.data.map (fun c => Json.num (c.toNat : Int))))])
  | .vjson j => jser j
  | .vraw d => jser (.obj [("data", .str d)])
  | .vstream _ _ => jser (.obj [])

/-- JS `String.prototype.includes`. -/
def strContains (s pat : String) : Bool :=
  decide (pat.data <:+: s.data)

/-- JS `String.prototype.startsWith`. -/
def strStartsWith (s pat : String) : Bool :=
  decide (pat.data <+: s.data)

/-- JS `String.prototype.toLowerCase` (ASCII, which is all the adapter
lower-cases). -/
def strToLower (s : String) : String :=
  ⟨s.data.map Char.toLower⟩

/-! ### `Context` (decoded request snapshot + mutable response intent) -/

structure Context where
  config : List (String × String)
  body : JsValue
  headers : Headers
  responseHeaders : Headers := []
  responseContentType : Option String := none
deriving Repr

def Context.getHeader (ctx : Context) (key : String) : Option String :=
  (hFind ctx.headers (canonHeader key)).bind List.head?

def Context.setResponseHeader (ctx : Context) (key : String) (values : List String) : Context :=
  { ctx with responseHeaders := hSet ctx.responseHeaders (canonHeader key) values }

def Context.addResponseHeader (ctx : Context) (key : String) (values : List String) : Context :=
  { ctx with responseHeaders := hAddPush ctx.responseHeaders (canonHeader key) values }

/-! ### Gateway view (`HTTPGatewayContext`) -/

/-- `HTTPGatewayContext.setResponseHeader`: a key whose canonical form is
`Content-Type` goes to the content-type slot (`values[0]`), every other
key becomes a marked transport response header. -/
def HTTPGatewayContext.setResponseHeader (ctx : Context) (key : String) (values : List String) : Context :=
  if canonHeader key == "Content-Type" then { ctx with responseContentType := values.head? }
  else Context.setResponseHeader ctx ("Fn-Http-H-" ++ key) values

/-- `HTTPGatewayContext.addResponseHeader`: always appends a marked
transport response header, with no `Content-Type` special case. -/
def HTTPGatewayContext.addResponseHeader (ctx : Context) (key : String) (values : List String) : Context :=
  Context.addResponseHeader ctx ("Fn-Http-H-" ++ key) values

/-! ### The outer transport response (`http.ServerResponse`)

Node stores response headers case-insensitively (keyed by the
lower-cased name); `endCount` counts the terminal `resp.end()` calls. -/

structure Resp where
  rheaders : Headers := []
  statusCode : Option Nat := none
  bodyChunks : List String := []
  endCount : Nat := 0
deriving Repr, DecidableEq

def Resp.setHeader (r : Resp) (k : String) (vs : List String) : Resp :=
  { r with rheaders := hSet r.rheaders (strToLower k) vs }

def Resp.removeHeader (r : Resp) (k : String) : Resp :=
  { r with rheaders := r.rheaders.filter (fun e => e.1 ≠ strToLower k) }

def Resp.writeHead (r : Resp) (code : Nat) : Resp :=
  { r with statusCode := some code }

def Resp.write (r : Resp) (s : String) : Resp :=
  { r with bodyChunks := r.bodyChunks ++ [s] }

def Resp.endResp (r : Resp) : Resp :=
  { r with endCount := r.endCount + 1 }

/-- Modelled from the spec: the two identification stamps are
environment-derived constants (`process.version` is outside the model);
only their presence matters to any claim. -/
def fdkVersion : String := "fdk-node/0.0.0 (njsv=v0.0.0)"

def runtimeTag : String := "node/0.0.0"

/-! ### Result Encoder (`sendResult`) and JSON error envelope -/

/-- The header-writing phase of `sendResult`: copy the response-intent
headers onto the transport response, strip any auto-added length header,
stamp the two identification headers and commit the status line. -/
def respHeaderPhase (ctx : Context) (resp : Resp) : Resp :=
  let resp := ctx.responseHeaders.foldl (fun r e => r.setHeader e.1 e.2) resp
  let resp := resp.removeHeader "Content-length"
  let resp := resp.setHeader "Fn-Fdk-Version" [fdkVersion]
  let resp := resp.setHeader "Fn-Fdk-Runtime" [runtimeTag]
  resp.writeHead 200

/-- `sendResult(ctx, resp, result)`, returning the updated context and
transport response.  The asynchronous tail
`p.then(() => resp.end(), err => \x7b log; resp.end() \x7d)` always ends the
response exactly once after the chosen writer ran, which is how the
stream/raw cases are rendered here. -/
def sendResult (ctx : Context) (resp : Resp) (result : JsValue) : Context × Resp :=
  let rct := ctx.responseContentType.getD ""
  let defaultJson := rct.data.isEmpty && jsNonNull result
  let isJSON := defaultJson ||
    (!rct.data.isEmpty && (strStartsWith rct "application/json" || strContains rct "+json"))
  let ctx := if defaultJson then { ctx with responseContentType := some "application/json" } else ctx
  let resp := respHeaderPhase ctx resp
  match result with
  | .vundef => (ctx, resp.endResp)
  | .vraw d => (ctx, (resp.write d).endResp)
  | .vstream chunks _ => (ctx, (chunks.foldl Resp.write resp).endResp)
  | .vstr s =>
    if isJSON then (ctx, (resp.write (jsStringify (.vstr s))).endResp)
    else (ctx, (resp.write s).endResp)
  | .vbuf b =>
    if isJSON then (ctx, (resp.write (jsStringify (.vbuf b))).endResp)
    else (ctx, (resp.write b).endResp)
  | .vjson j =>
    if isJSON then (ctx, (resp.write (jsStringify (.vjson j))).endResp)
    else (ctx, resp.endResp)

/-- `sendJSONError(resp, code, error)`. -/
def sendJSONError (resp : Resp) (code : Nat) (message detail : String) : Resp :=
  let errStr := jser (.obj [("message", .str message), ("detail", .str detail)])
  ((((resp.setHeader "Content-Type" ["application/json"]).writeHead code).write errStr).endResp)

/-- `handleFunctionError`: user-code failure becomes a 502 envelope. -/
def handleFunctionError (errStr : String) (resp : Resp) : Resp :=
  sendJSONError resp 502 "Exception in function, consult logs for details" errStr

/-! ### Request gate of `functionHandler` -/

inductive GateOutcome where
  | rejected (resp : Resp) : GateOutcome
  | acceptedToUserCode : GateOutcome
deriving Repr, DecidableEq

/-- The validation at the top of `functionHandler`: anything but
`POST /call` is rejected with the fixed 400 envelope before any input
is read or user code touched. -/
def functionHandlerGate (method url : String) (resp : Resp) : GateOutcome :=
  if method != "POST" || url != "/call" then
    .rejected (sendJSONError resp 400 "Invalid method" "Bad request")
  else .acceptedToUserCode

/-! ### JSON input accumulator (`JSONInputHandler`) -/

structure JSONInputHandler where
  str : String := ""
deriving Repr, DecidableEq

def JSONInputHandler.pushData (h : JSONInputHandler) (data : String) : JSONInputHandler :=
  ⟨h.str ++ data⟩

/-- `getBody`: strict parse of the accumulated text, falling back to the
raw text itself when the parse fails. -/
def JSONInputHandler.getBody (h : JSONInputHandler) : JsValue :=
  match parseJson h.str with
  | some j => ofJson j
  | none => .vstr h.str

/-! ### Middleware shim (`createExpressResponse` / `handleExpressRequest`)

The synthetic express response accumulates status, lower-cased headers
and body chunks; `end` settles a single-settlement promise slot
(`eresolved` keeps only the first resolution, as a JS promise does).
A middleware run is abstracted by the list of response actions it
performs followed by how the chain finishes (clean callback, callback
with an error, or a synchronous throw); the actions and the finish run
synchronously, then the promise continuation registered by
`waitForFinish().then(completeResponse).catch(handleError)` runs as a
microtask.  This mirrors the JS event loop: a continuation of a promise
resolved during the synchronous phase cannot run before that phase
completes. -/

structure ExResp where
  status : Nat
  headers : List (String × String)
  body : JsValue
deriving Repr

structure ERes where
  eheaders : List (String × String) := []
  estatus : Nat := 200
  ebody : List String := []
  efinished : Bool := false
  eresolved : Option ExResp := none
deriving Repr

def sSet (m : List (String × String)) (k v : String) : List (String × String) :=
  if m.any (fun e => e.1 == k) then m.map (fun e => if e.1 == k then (k, v) else e)
  else m ++ [(k, v)]

def sLookup (m : List (String × String)) (k : String) : Option String :=
  (m.find? (fun e => e.1 == k)).map (fun e => e.2)

def ERes.setHeader (r : ERes) (k v : String) : ERes :=
  { r with eheaders := sSet r.eheaders (strToLower k) v }

def ERes.writeHead (r : ERes) (status : Nat) (hs : List (String × String)) : ERes :=
  { r with
    estatus := status,
    eheaders := hs.foldl (fun m kv => sSet m (strToLower kv.1) kv.2) r.eheaders }

def ERes.write (r : ERes) (chunk : String) : ERes :=
  { r with ebody := r.ebody ++ [chunk] }

def ERes.snapshot (r : ERes) : ExResp :=
  { status := r.estatus, headers := r.eheaders, body := .vbuf (String.join r.ebody) }

/-- `end(chunk?)`: optional final write, mark finished, resolve the
promise (only the first resolution sticks). -/
def ERes.endRes (r : ERes) (chunk : Option String) : ERes :=
  let r := match chunk with
    | some c => r.write c
    | none => r
  let r := { r with efinished := true }
  { r with eresolved := match r.eresolved with
      | some x => some x
      | none => some r.snapshot }

/-- One call a middleware chain makes on the synthetic response. -/
inductive EAction where
  | setHeader (k v : String) : EAction
  | writeHead (status : Nat) : EAction
  | write (chunk : String) : EAction
  | endRes (chunk : Option String) : EAction
deriving Repr

def runAction (r : ERes) : EAction → ERes
  | .setHeader k v => r.setHeader k v
  | .writeHead status => r.writeHead status []
  | .write c => r.write c
  | .endRes c => r.endRes c

/-- How the middleware chain finishes: its completion callback fires
without or with an error, or the chain throws synchronously. -/
inductive EFinish where
  | callbackOk : EFinish
  | callbackErr (e : String) : EFinish
  | throwErr (e : String) : EFinish
deriving Repr

/-- `result.headers['content-type']?.[0] || ''` — the header value is a
*string*, so `?.[0]` yields its first character (or `undefined` for the
empty string / a missing header), not the whole value. -/
def expressContentType (result : ExResp) : String :=
  match sLookup result.headers "content-type" with
  | none => ""
  | some s =>
    match s.data with
    | [] => ""
    | c :: _ => String.singleton c

/-- The JSON sniff of `sendExpressResponse`:
`contentType.includes('application/json') || typeof result.body === 'object'`.
A Node `Buffer` has `typeof` `"object"`, so every buffered body passes. -/
def expressIsJson (result : ExResp) : Bool :=
  strContains (expressContentType result) "application/json" ||
    jsTypeof result.body == "object"

/-- `sendExpressResponse(result, ctx, resp)`.  `.error` models an
uncaught exception (`JSON.parse` throwing on a non-JSON body). -/
def sendExpressResponse (result : ExResp) (ctx : Context) (resp : Resp) :
    Except String (Context × Resp) :=
  let contentType := expressContentType result
  let ctx := if result.status ≠ 0 then
      Context.setResponseHeader ctx "Fn-Http-Status" [toString result.status]
    else ctx
  let ctx := result.headers.foldl
    (fun c kv =>
      if strToLower kv.1 ≠ "content-length" then
        Context.setResponseHeader c ("Fn-Http-H-" ++ kv.1) [kv.2]
      else c)
    ctx
  if expressIsJson result then
    match
      (match result.body with
       | .vbuf s =>
         match parseJson s with
         | some j => Except.ok (ofJson j)
         | none => Except.error "SyntaxError: JSON.parse on a non-JSON body"
       | b =>
         if jsTypeof b == "object" then Except.ok b
         else
           match parseJson (jsToString b) with
           | some j => Except.ok (ofJson j)
           | none => Except.error "SyntaxError: JSON.parse on a non-JSON body")
    with
    | .error e => .error e
    | .ok jsonBody =>
      let ctx := { ctx with responseContentType := some "application/json" }
      .ok (sendResult ctx resp jsonBody)
  else
    let newCt := if contentType.data.isEmpty then "application/octet-stream" else contentType
    let ctx := { ctx with responseContentType := some newCt }
    .ok (sendResult ctx resp result.body)

/-- `handleExpressError`: shim-originated failure becomes a 500 envelope. -/
def handleExpressError (e : String) (resp : Resp) : Resp :=
  sendJSONError resp 500 "Internal Server Error" e

/-- The shared state `handleExpressRequest` closes over: the context,
the outer transport response and the one-shot `responseHandled` flag. -/
structure ExState where
  ctx : Context
  resp : Resp
  handled : Bool
deriving Repr

/-- `handleError(error)`: first-trigger guard, then the 500 envelope. -/
def handleErrorStep (st : ExState) (e : String) : ExState :=
  if st.handled then st
  else { st with handled := true, resp := handleExpressError e st.resp }

/-- `completeResponse(result)`: first-trigger guard, then
`sendExpressResponse`.  If that throws, the rejection lands in the
`.catch(handleError)` of the same chain, whose guard sees
`responseHandled === true` and drops it — so nothing is written and the
transport response is never ended. -/
def completeResponseStep (st : ExState) (snap : ExResp) : ExState :=
  if st.handled then st
  else
    let st := { st with handled := true }
    match sendExpressResponse snap st.ctx st.resp with
    | .ok (c, r) => { st with ctx := c, resp := r }
    | .error _ => st

/-- `handleExpressRequest`, for a middleware chain that performs
`actions` on the synthetic response and then finishes as `fin`.
Synchronous phase first (the chain, its completion callback, the
try/catch), then the settlement microtask. -/
def handleExpressRequest (ctx : Context) (resp : Resp)
    (actions : List EAction) (fin : EFinish) : ExState :=
  let res := actions.foldl runAction {}
  let st0 : ExState := ⟨ctx, resp, false⟩
  let st1 :=
    match fin with
    | .throwErr e => handleErrorStep st0 e
    | .callbackErr e => handleErrorStep st0 e
    | .callbackOk =>
      if !res.efinished then
        -- `express404Handler()`: the synthetic response object has no
        -- `status`/`json` methods and `sendExpressResponse(res, ...)`
        -- reads the absent `headers` field of the shim object, so a
        -- TypeError reaches the enclosing try/catch on this branch.
        handleErrorStep st0 "TypeError: res.status is not a function"
      else st0
  match res.eresolved with
  | some snap => completeResponseStep st1 snap
  | none => st1

/-! ### Shared concrete fixtures -/

/-- An empty invocation context (no configuration, empty body, no headers). -/
def ctx0 : Context := { config := [], body := .vundef, headers := [] }

/-- A fresh outer transport response. -/
def resp0 : Resp := {}

/-- A settled shim exchange with a declared `text/plain` content type and a
non-JSON buffered body. -/
def exchangeTextPlain : ExResp :=
  { status := 200, headers := [("content-type", "text/plain")], body := .vbuf "hello" }

/-! ### Claim theorems -/

/-- C1 (code_bug evidence): `processHeaders` canonicalizes every name before
looking it up in `skipHeaders`, and the canonical form of `TE` (in any
casing) is `Te`, which is *not* a key of the deny object — so a `TE`
header is never dropped and surfaces as `Te` in the decoded header map,
while the five other deny-set names, whose canonical forms match their
keys, are dropped in every casing. -/
theorem processHeaders_te_never_dropped :
    processHeaders [("TE", "x")] = [("Te", ["x"])] ∧
    processHeaders [("te", "x")] = [("Te", ["x"])] ∧
    processHeaders [("Te", "x")] = [("Te", ["x"])] ∧
    processHeaders [("Connection", "c"), ("keep-alive", "k"), ("TRANSFER-ENCODING", "t"),
      ("trailer", "t"), ("upgrade", "u"), ("X-Other", "v")] = [("X-Other", ["v"])] ∧
    canonHeader "TE" = "Te" ∧
    skipHeaders "Te" = false ∧
    skipHeaders "TE" = true :=
  ⟨rfl, rfl, rfl, rfl, rfl, rfl, rfl⟩

/-- C6 (counterexample): the claim says empty segments vanish without
leaving stray separators, so the reference canonicalization sends
`"a--b"` to `"A-B"`; the code keeps the empty segment (JS `split`
retains it and `join` re-inserts both separators), producing `"A--B"`. -/
theorem canonHeader_empty_segment_counterexample :
    canonHeader "a--b" = "A--B" ∧
    canonSpecHeader "a--b" = "A-B" ∧
    canonHeader "a--b" ≠ canonSpecHeader "a--b" := by
  refine ⟨rfl, rfl, ?_⟩
  decide

/-- C6 (amended): canonicalization replaces `_` by `-`, splits on `-`,
capitalizes each non-empty segment (an empty segment becomes the empty
string, its separators preserved), and rejoins with `-`; it is a pure
total function, idempotent under repeated application, and
`canonicalize("content_type") = canonicalize("Content-Type") =
"Content-Type"`, while `canonicalize("a--b") = "A--B"`. -/
theorem canonHeader_properties :
    (∀ s, canonHeader (canonHeader s) = canonHeader s) ∧
    canonHeader "content_type" = "Content-Type" ∧
    canonHeader "Content-Type" = "Content-Type" ∧
    canonHeader "a--b" = "A--B" :=
  ⟨canonHeader_idem, rfl, rfl, rfl⟩

theorem pushData_foldl (chunks : List String) (h : JSONInputHandler) :
    (chunks.foldl JSONInputHandler.pushData h).str = chunks.foldl (· ++ ·) h.str := by
  induction chunks generalizing h with
  | nil => rfl
  | cons c cs ih => simp [List.foldl_cons, JSONInputHandler.pushData, ih]

/-- C7 (confirmed): the JSON input accumulator concatenates its chunks as
text; finalizing attempts a strict JSON parse, returning the structured
value on success and the raw accumulated text itself on failure, with no
error raised — `'\x7b"a":1\x7d'` gives the structured object, `'not json'`
gives the literal string back. -/
theorem jsonAccumulator_parse_fallback :
    (∀ chunks : List String,
      (chunks.foldl JSONInputHandler.pushData ⟨""⟩).getBody =
        match parseJson (String.join chunks) with
        | some j => ofJson j
        | none => .vstr (String.join chunks)) ∧
    JSONInputHandler.getBody ⟨"\x7b\"a\":1\x7d"⟩ = .vjson (.obj [("a", .num 1)]) ∧
    JSONInputHandler.getBody ⟨"not json"⟩ = .vstr "not json" := by
  refine ⟨?_, rfl, rfl⟩
  intro chunks
  have h : (chunks.foldl JSONInputHandler.pushData ⟨""⟩).str = String.join chunks := by
    rw [pushData_foldl]
    rfl
  simp only [JSONInputHandler.getBody, h]

/-- C8 (confirmed): any request that is not `POST /call` is rejected before
user code with the terminal JSON error: status 400, content type
`application/json`, body exactly
`\x7b"message":"Invalid method","detail":"Bad request"\x7d`, one terminal
write-end. -/
theorem invalidRequest_rejected (method url : String) (resp : Resp)
    (h : method ≠ "POST" ∨ url ≠ "/call") :
    functionHandlerGate method url resp =
      .rejected (sendJSONError resp 400 "Invalid method" "Bad request") ∧
    (sendJSONError resp 400 "Invalid method" "Bad request").statusCode = some 400 ∧
    (sendJSONError resp 400 "Invalid method" "Bad request").bodyChunks =
      resp.bodyChunks ++ ["\x7b\"message\":\"Invalid method\",\"detail\":\"Bad request\"\x7d"] ∧
    (sendJSONError resp 400 "Invalid method" "Bad request").endCount = resp.endCount + 1 := by
  refine ⟨?_, rfl, rfl, rfl⟩
  unfold functionHandlerGate
  have hb : (method != "POST" || url != "/call") = true := by
    rcases h with h | h <;> simp [h]
  rw [if_pos hb]

/-- Witness for C8 at the concrete invalid request `GET /call`. -/
theorem invalidRequest_rejected_witness :
    functionHandlerGate "GET" "/call" resp0 =
      .rejected (sendJSONError resp0 400 "Invalid method" "Bad request") ∧
    (sendJSONError resp0 400 "Invalid method" "Bad request").statusCode = some 400 ∧
    (sendJSONError resp0 400 "Invalid method" "Bad request").bodyChunks =
      resp0.bodyChunks ++ ["\x7b\"message\":\"Invalid method\",\"detail\":\"Bad request\"\x7d"] ∧
    (sendJSONError resp0 400 "Invalid method" "Bad request").endCount = resp0.endCount + 1 :=
  invalidRequest_rejected "GET" "/call" resp0 (Or.inl (by decide))

/-- C9 (confirmed): on the gateway view, `setResponseHeader` with a key
whose canonical form is `Content-Type` sets the content-type slot to the
first value and adds no header, while any other key becomes the marked
transport header `Fn-Http-H-<canonical key>` and leaves the slot alone;
concretely `setResponseHeader("X-Foo","bar")` yields the transport header
`Fn-Http-H-X-Foo: bar` and `setResponseHeader("Content-Type","text/html")`
yields the slot and no header. -/
theorem gatewaySetResponseHeader_content_type_exclusive :
    (∀ (ctx : Context) (key : String) (values : List String),
      if canonHeader key = "Content-Type" then
        (HTTPGatewayContext.setResponseHeader ctx key values).responseContentType = values.head? ∧
        (HTTPGatewayContext.setResponseHeader ctx key values).responseHeaders = ctx.responseHeaders
      else
        (HTTPGatewayContext.setResponseHeader ctx key values).responseContentType = ctx.responseContentType ∧
        (HTTPGatewayContext.setResponseHeader ctx key values).responseHeaders =
          hSet ctx.responseHeaders ("Fn-Http-H-" ++ canonHeader key) values) ∧
    (HTTPGatewayContext.setResponseHeader ctx0 "X-Foo" ["bar"]).responseHeaders =
      [("Fn-Http-H-X-Foo", ["bar"])] ∧
    (HTTPGatewayContext.setResponseHeader ctx0 "Content-Type" ["text/html"]).responseContentType =
      some "text/html" ∧
    (HTTPGatewayContext.setResponseHeader ctx0 "Content-Type" ["text/html"]).responseHeaders = [] := by
  refine ⟨?_, rfl, rfl, rfl⟩
  intro ctx key values
  by_cases h : canonHeader key = "Content-Type"
  · rw [if_pos h]
    unfold HTTPGatewayContext.setResponseHeader
    rw [show (canonHeader key == "Content-Type") = true from by simp [h]]
    exact ⟨rfl, rfl⟩
  · rw [if_neg h]
    unfold HTTPGatewayContext.setResponseHeader
    rw [show (canonHeader key == "Content-Type") = false from by simp [h]]
    refine ⟨rfl, ?_⟩
    show (Context.setResponseHeader ctx ("Fn-Http-H-" ++ key) values).responseHeaders = _
    unfold Context.setResponseHeader
    rw [canonHeader_gateway]

/-- C10 (confirmed): on the gateway view, `addResponseHeader` applies no
`Content-Type` special case: `addResponseHeader("Content-Type", v)` leaves
the content-type slot untouched and appends the marked transport header
`Fn-Http-H-Content-Type: v` — a header the `setResponseHeader` path never
produces for the same key. -/
theorem gatewayAddResponseHeader_no_content_type_case :
    (∀ (ctx : Context) (v : String),
      (HTTPGatewayContext.addResponseHeader ctx "Content-Type" [v]).responseContentType =
        ctx.responseContentType ∧
      (HTTPGatewayContext.addResponseHeader ctx "Content-Type" [v]).responseHeaders =
        hAddPush ctx.responseHeaders "Fn-Http-H-Content-Type" [v]) ∧
    (HTTPGatewayContext.addResponseHeader ctx0 "Content-Type" ["text/html"]).responseHeaders =
      [("Fn-Http-H-Content-Type", ["text/html"])] ∧
    (HTTPGatewayContext.addResponseHeader ctx0 "Content-Type" ["text/html"]).responseContentType =
      none ∧
    (HTTPGatewayContext.setResponseHeader ctx0 "Content-Type" ["text/html"]).responseHeaders = [] := by
  refine ⟨?_, rfl, rfl, rfl⟩
  intro ctx v
  refine ⟨rfl, ?_⟩
  show (Context.addResponseHeader ctx ("Fn-Http-H-" ++ "Content-Type") [v]).responseHeaders = _
  unfold Context.addResponseHeader
  rw [show canonHeader ("Fn-Http-H-" ++ "Content-Type") = "Fn-Http-H-Content-Type" from by decide]

theorem bodyChunks_foldl_setHeader (l : Headers) (r : Resp) :
    (l.foldl (fun r e => Resp.setHeader r e.1 e.2) r).bodyChunks = r.bodyChunks := by
  induction l generalizing r with
  | nil => rfl
  | cons e l ih =>
    rw [List.foldl_cons, ih]
    rfl

theorem respHeaderPhase_bodyChunks (ctx : Context) (resp : Resp) :
    (respHeaderPhase ctx resp).bodyChunks = resp.bodyChunks := by
  show (ctx.responseHeaders.foldl (fun r e => Resp.setHeader r e.1 e.2) resp).bodyChunks =
    resp.bodyChunks
  exact bodyChunks_foldl_setHeader ctx.responseHeaders resp

/-- C2 (amended): for every result value that is not `null`/`undefined` and
not one of the `FnResult` writer wrappers (`RawResult`/`StreamResult`),
when no explicit content type is set the encoder defaults to JSON: the
response content-type slot becomes `application/json` and the body
written is `JSON.stringify` of the value — so `\x7b"x":1\x7d` is sent as
`\x7b"x":1\x7d` and the string `"plain"` as the quoted `"plain"`.
(Wrapper values still get the slot defaulted but write through their own
writer; see the counterexample.) -/
theorem sendResult_defaults_to_json (ctx : Context) (resp : Resp) (r : JsValue)
    (hct : ctx.responseContentType = none)
    (hr : r ≠ .vundef)
    (hraw : ∀ d, r ≠ .vraw d)
    (hstream : ∀ cs ok, r ≠ .vstream cs ok) :
    (sendResult ctx resp r).1.responseContentType = some "application/json" ∧
    (sendResult ctx resp r).2.bodyChunks = resp.bodyChunks ++ [jsStringify r] := by
  obtain ⟨cfg, bod, hdr, rH, rCT⟩ := ctx
  replace hct : rCT = none := hct
  subst hct
  cases r with
  | vundef => exact absurd rfl hr
  | vraw d => exact absurd rfl (hraw d)
  | vstream cs ok => exact absurd rfl (hstream cs ok)
  | vstr s =>
    refine ⟨rfl, ?_⟩
    show (respHeaderPhase _ resp).bodyChunks ++ [jsStringify (.vstr s)] =
      resp.bodyChunks ++ [jsStringify (.vstr s)]
    rw [respHeaderPhase_bodyChunks]
  | vbuf b =>
    refine ⟨rfl, ?_⟩
    show (respHeaderPhase _ resp).bodyChunks ++ [jsStringify (.vbuf b)] =
      resp.bodyChunks ++ [jsStringify (.vbuf b)]
    rw [respHeaderPhase_bodyChunks]
  | vjson j =>
    refine ⟨rfl, ?_⟩
    show (respHeaderPhase _ resp).bodyChunks ++ [jsStringify (.vjson j)] =
      resp.bodyChunks ++ [jsStringify (.vjson j)]
    rw [respHeaderPhase_bodyChunks]

/-- Witness for C2's theorem: the string `"plain"` with no explicit content
type is sent with the JSON default and the quoted body `"plain"`. -/
theorem sendResult_defaults_to_json_witness :
    (sendResult ctx0 resp0 (.vstr "plain")).1.responseContentType = some "application/json" ∧
    (sendResult ctx0 resp0 (.vstr "plain")).2.bodyChunks = resp0.bodyChunks ++ [jsStringify (.vstr "plain")] :=
  sendResult_defaults_to_json ctx0 resp0 (.vstr "plain") rfl
    (fun h => JsValue.noConfusion h)
    (fun _ h => JsValue.noConfusion h)
    (fun _ _ h => JsValue.noConfusion h)

/-- C2 (counterexample): a `RawResult` wrapper is a non-empty result value,
and with no explicit content type the encoder still defaults the
content-type slot to `application/json` — but the body written is the
wrapper's raw data (`"abc"`), not the JSON serialization of the value, so
the claim's universally quantified body clause fails. -/
theorem sendResult_raw_wrapper_counterexample :
    ctx0.responseContentType = none ∧
    jsNonNull (JsValue.vraw "abc") = true ∧
    (sendResult ctx0 resp0 (.vraw "abc")).1.responseContentType = some "application/json" ∧
    (sendResult ctx0 resp0 (.vraw "abc")).2.bodyChunks = ["abc"] ∧
    (sendResult ctx0 resp0 (.vraw "abc")).2.bodyChunks ≠ [jsStringify (.vraw "abc")] := by
  refine ⟨rfl, rfl, rfl, rfl, ?_⟩
  decide

/-- C3 (code_bug evidence): for a settled exchange with declared content
type `text/plain` and the buffered body `"hello"`, the sniff of
`sendExpressResponse` still routes to the JSON path: the expression
`result.headers['content-type']?.[0] || ''` reads only the first
character (`"t"`), which never contains `"application/json"`, and
`typeof body === 'object'` is true of every Node buffer — so `isJson` is
true and `JSON.parse("hello")` throws instead of the body being sent as
raw bytes with the declared content type. -/
theorem expressSniff_buffer_routed_to_json :
    expressContentType exchangeTextPlain = "t" ∧
    strContains "t" "application/json" = false ∧
    jsTypeof exchangeTextPlain.body = "object" ∧
    expressIsJson exchangeTextPlain = true ∧
    sendExpressResponse exchangeTextPlain ctx0 resp0 =
      .error "SyntaxError: JSON.parse on a non-JSON body" :=
  ⟨rfl, rfl, rfl, rfl, rfl⟩

/-- C4 (code_bug evidence): in a shim exchange where the handler chain
first settles the response with `end("hi")` and then reports an error to
the completion callback, the error wins: `handleError` runs
synchronously while the settlement's promise continuation is still
queued as a microtask, finds `responseHandled` still false, and replaces
the settled response with the 500 error envelope — the later trigger is
not a no-op. -/
theorem errorAfterEnd_overrides_settlement :
    (([EAction.endRes (some "hi")]).foldl runAction {}).efinished = true ∧
    (([EAction.endRes (some "hi")]).foldl runAction {}).eresolved.isSome = true ∧
    (handleExpressRequest ctx0 resp0 [.endRes (some "hi")] (.callbackErr "Error: boom")).resp =
      sendJSONError resp0 500 "Internal Server Error" "Error: boom" ∧
    (handleExpressRequest ctx0 resp0 [.endRes (some "hi")] (.callbackErr "Error: boom")).resp.statusCode =
      some 500 ∧
    (handleExpressRequest ctx0 resp0 [.endRes (some "hi")] (.callbackErr "Error: boom")).resp.bodyChunks =
      ["\x7b\"message\":\"Internal Server Error\",\"detail\":\"Error: boom\"\x7d"] :=
  ⟨rfl, rfl, rfl, rfl, rfl⟩

/-- C5 (code_bug evidence): an invocation path with zero terminal
write-ends.  A middleware chain sets `content-type: text/plain`, ends
with the non-JSON body `"hello"`, and completes cleanly; the settlement
microtask marks the exchange handled and calls `sendExpressResponse`,
whose JSON sniff accepts every buffer, so `JSON.parse("hello")` throws
after the one-shot guard was consumed — the rejection is dropped by the
guard and `resp.end` is never called on the outer transport. -/
theorem settlement_path_with_zero_terminal_ends :
    (handleExpressRequest ctx0 resp0
      [.setHeader "content-type" "text/plain", .endRes (some "hello")] .callbackOk).resp.endCount = 0 ∧
    (handleExpressRequest ctx0 resp0
      [.setHeader "content-type" "text/plain", .endRes (some "hello")] .callbackOk).resp = resp0 ∧
    (handleExpressRequest ctx0 resp0
      [.setHeader "content-type" "text/plain", .endRes (some "hello")] .callbackOk).handled = true :=
  ⟨rfl, rfl, rfl⟩

end Fdk
